import Mathlib

/-!
Verification of the dual Z-score calculator of `src/app.py`
(`calculate_dual_zscore`, together with the reference-statistics computation
it performs inline via `df_reference[value_cols].agg(['mean', 'std'])`).

Embedding choices:
* A pandas row that survived the upstream cleaning is a `Record`: a player
  name (`COL_JUGADOR` column), a group label (`COL_CATEGORIA` column), and a
  numeric value for every configured metric column.  The metric columns
  actually present in the dataframe are passed around as `dataCols`
  (in the application they are `COLS_ZSCORE = [RM SENTADILLA, VO2 MAX]`).
* Floating-point doubles are modelled as real numbers.  pandas'
  `std` uses the sample (ddof = 1) standard deviation and returns NaN exactly
  when the population has fewer than two rows; the code tests
  `std == 0 or np.isnan(std)`, which is modelled by the disjunction
  `sampleStd vs = 0 ∨ vs.length ≤ 1`.
* A dataframe is a `List` of rows, so `pd.concat` is `List.flatten` and the
  row order of every intermediate frame is preserved, as pandas does.
-/

namespace DualZScore

/-- Column name of the player identifier in the source dataframe. -/
def COL_JUGADOR : String := "JUGADOR"

/-- Column name of the group label in the source dataframe. -/
def COL_CATEGORIA : String := "CATEGORÍA"

/-- Column name added in step 5 of `calculate_dual_zscore`
(`df_cat_zscore['Categoría de Referencia'] = ref_cat`). -/
def REF_COL : String := "Categoría de Referencia"

/-- Name of the standardized-score column for a metric:
`new_col_name = f'Z-Score {col}'` in the source. -/
def zscoreColName (col : String) : String := "Z-Score " ++ col

/-- One cleaned dataframe row: player name, group label, and a numeric value
for every metric column. -/
structure Record where
  jugador : String
  categoria : String
  value : String → ℝ

/-- One row of the calculator's output frame: the copied player name and
group label, the remaining raw metric columns (name, value), the added
Z-score columns (metric name, score), and the added reference-group tag. -/
structure ScoredRow where
  jugador : String
  categoria : String
  rawCols : List (String × ℝ)
  zscores : List (String × ℝ)
  refCategoria : String

/-- Column names carried by an output row, in dataframe order: the copied
`JUGADOR` and `CATEGORÍA` columns, the surviving raw metric columns, the
`Z-Score {col}` columns, and `Categoría de Referencia`. -/
def rowColumns (row : ScoredRow) : List String :=
  [COL_JUGADOR, COL_CATEGORIA] ++ row.rawCols.map Prod.fst
    ++ row.zscores.map (fun p => zscoreColName p.1) ++ [REF_COL]

/-- Step 1 of `calculate_dual_zscore`:
`df_targets = df[df[COL_JUGADOR].isin(target_players)].copy()`. -/
def filterTargets (records : List Record) (target_players : List String) :
    List Record :=
  records.filter (fun r => target_players.contains r.jugador)

/-- Step 2 of `calculate_dual_zscore`:
`df_reference = df[df[COL_CATEGORIA] == ref_cat]`. -/
def refPopulation (records : List Record) (ref_cat : String) : List Record :=
  records.filter (fun r => r.categoria == ref_cat)

/-- The column `col` of a population, as the list of its values in row
order (`df_reference[col]`). -/
def colValues (pop : List Record) (col : String) : List ℝ :=
  pop.map (fun r => r.value col)

/-- Arithmetic mean, as computed by pandas' `mean` aggregation. -/
noncomputable def mean (xs : List ℝ) : ℝ := xs.sum / xs.length

/-- Sample variance with the N−1 denominator underlying pandas' `std`
aggregation (ddof = 1). -/
noncomputable def sampleVar (xs : List ℝ) : ℝ :=
  (xs.map (fun x => (x - mean xs) ^ 2)).sum / ((xs.length : ℝ) - 1)

/-- Sample standard deviation, pandas' `std` aggregation (ddof = 1). -/
noncomputable def sampleStd (xs : List ℝ) : ℝ := Real.sqrt (sampleVar xs)

/-- Score of raw value `x` for metric `col` against population `pop`:
the body of the per-column loop of `calculate_dual_zscore`.  The guard
`std == 0 or np.isnan(std)` is modelled by `sampleStd vs = 0 ∨ vs.length ≤ 1`:
pandas' ddof-1 `std` of a numeric column is NaN exactly when the column has
fewer than two entries. -/
noncomputable def zscoreOf (pop : List Record) (col : String) (x : ℝ) : ℝ :=
  let vs := colValues pop col
  haveI := Classical.propDecidable (sampleStd vs = 0 ∨ vs.length ≤ 1)
  if sampleStd vs = 0 ∨ vs.length ≤ 1 then 0
  else (x - mean vs) / sampleStd vs

/-- One output row before the final column drop: `df_targets.copy()` keeps
every raw metric column of row `r`, then the loop adds one
`Z-Score {col}` column per requested metric, then the reference tag. -/
noncomputable def rawScoredRow (records : List Record) (dataCols : List String)
    (value_cols : List String) (ref_cat : String) (r : Record) : ScoredRow :=
  { jugador := r.jugador
    categoria := r.categoria
    rawCols := dataCols.map (fun c => (c, r.value c))
    zscores := value_cols.map
      (fun col => (col, zscoreOf (refPopulation records ref_cat) col (r.value col)))
    refCategoria := ref_cat }

/-- The final `df_final.drop(columns=cols_to_drop)`: remove from a row the
raw columns whose name is one of the requested metrics. -/
def dropValueCols (value_cols : List String) (row : ScoredRow) : ScoredRow :=
  { row with rawCols := row.rawCols.filter (fun p => !(value_cols.contains p.1)) }

/-- The dual Z-score calculator `calculate_dual_zscore` of `src/app.py`,
translated statement by statement: filter the target rows, loop over the
reference categories accumulating one scored frame per non-empty reference
population, return an empty frame when no comparison was produced, otherwise
concatenate and drop the raw metric columns. -/
noncomputable def calculate_dual_zscore (records : List Record)
    (dataCols : List String) (target_players : List String)
    (reference_categories : List String) (value_cols : List String) :
    List ScoredRow :=
  let df_targets := filterTargets records target_players
  let all_comparisons := reference_categories.foldl
    (fun acc ref_cat =>
      let df_reference := refPopulation records ref_cat
      if df_reference.isEmpty then acc
      else
        acc ++ [df_targets.map (rawScoredRow records dataCols value_cols ref_cat)])
    []
  if all_comparisons.isEmpty then []
  else (all_comparisons.flatten).map (dropValueCols value_cols)

/-- The fully processed output row produced from target row `r` in the pass
for reference category `ref_cat` (raw metric columns already dropped). -/
noncomputable def scoredRowFor (records : List Record) (dataCols : List String)
    (value_cols : List String) (ref_cat : String) (r : Record) : ScoredRow :=
  dropValueCols value_cols (rawScoredRow records dataCols value_cols ref_cat r)

/-- The block of output rows a single reference category contributes: nothing
when its population is empty, otherwise one row per filtered target row, in
the original row order. -/
noncomputable def groupBlock (records : List Record) (dataCols : List String)
    (target_players : List String) (value_cols : List String)
    (ref_cat : String) : List ScoredRow :=
  if (refPopulation records ref_cat).isEmpty then []
  else (filterTargets records target_players).map
    (scoredRowFor records dataCols value_cols ref_cat)

/-! Structural lemmas about the calculator. -/

/-- Folding an accumulate-and-append step is the same as appending the
concatenation of the per-element contributions. -/
lemma foldl_acc_append {α β : Type} (F : α → List β) :
    ∀ (gs : List α) (acc : List β),
      gs.foldl (fun a g => a ++ F g) acc = acc ++ gs.flatMap F := by
  intro gs
  induction gs with
  | nil => simp
  | cons g gs ih =>
    intro acc
    simp only [List.foldl_cons, List.flatMap_cons, ih, List.append_assoc]

/-- The calculator is the in-order concatenation of the per-reference-category
blocks: grouped by reference category in input order, and inside each block one
row per filtered target row, in the original row order. -/
lemma calc_eq_flatMap (records : List Record) (dataCols tps gs vcs : List String) :
    calculate_dual_zscore records dataCols tps gs vcs
      = gs.flatMap (groupBlock records dataCols tps vcs) := by
  have hfun : (fun (acc : List (List ScoredRow)) ref_cat =>
        if (refPopulation records ref_cat).isEmpty then acc
        else acc ++ [(filterTargets records tps).map
          (rawScoredRow records dataCols vcs ref_cat)])
      = (fun acc ref_cat => acc ++
          (if (refPopulation records ref_cat).isEmpty then []
           else [(filterTargets records tps).map
             (rawScoredRow records dataCols vcs ref_cat)])) := by
    funext acc ref_cat
    by_cases h : (refPopulation records ref_cat).isEmpty <;> simp [h]
  have haux : ∀ gs' : List String,
      (((gs'.flatMap (fun g =>
          if (refPopulation records g).isEmpty then []
          else [(filterTargets records tps).map
            (rawScoredRow records dataCols vcs g)])).flatten).map
        (dropValueCols vcs))
      = gs'.flatMap (groupBlock records dataCols tps vcs) := by
    intro gs'
    induction gs' with
    | nil => simp
    | cons g gs' ih =>
      by_cases h : (refPopulation records g).isEmpty <;>
        simp [h, groupBlock, ih, List.map_map, scoredRowFor, Function.comp_def]
  show (if ((gs.foldl (fun acc ref_cat =>
        if (refPopulation records ref_cat).isEmpty then acc
        else acc ++ [(filterTargets records tps).map
          (rawScoredRow records dataCols vcs ref_cat)]) [])).isEmpty
      then []
      else ((gs.foldl (fun acc ref_cat =>
        if (refPopulation records ref_cat).isEmpty then acc
        else acc ++ [(filterTargets records tps).map
          (rawScoredRow records dataCols vcs ref_cat)]) [])).flatten.map
        (dropValueCols vcs))
    = gs.flatMap (groupBlock records dataCols tps vcs)
  rw [hfun, foldl_acc_append, List.nil_append]
  by_cases hA : (gs.flatMap (fun g =>
      if (refPopulation records g).isEmpty then []
      else [(filterTargets records tps).map
        (rawScoredRow records dataCols vcs g)])) = []
  · rw [hA, ← haux, hA]
    simp
  · rw [if_neg (by simpa [List.isEmpty_iff] using hA), haux]

/-- The reference tag of a processed row. -/
lemma scoredRowFor_refCategoria (records : List Record)
    (dataCols vcs : List String) (g : String) (r : Record) :
    (scoredRowFor records dataCols vcs g r).refCategoria = g := rfl

/-- Membership in the calculator's output, characterised. -/
lemma mem_calc_iff (records : List Record) (dataCols tps gs vcs : List String)
    (out : ScoredRow) :
    out ∈ calculate_dual_zscore records dataCols tps gs vcs ↔
      ∃ g ∈ gs, ¬(refPopulation records g).isEmpty ∧
        ∃ r ∈ filterTargets records tps,
          out = scoredRowFor records dataCols vcs g r := by
  rw [calc_eq_flatMap, List.mem_flatMap]
  constructor
  · rintro ⟨g, hg, hout⟩
    simp only [groupBlock] at hout
    by_cases h : (refPopulation records g).isEmpty
    · rw [if_pos h] at hout
      simp at hout
    · rw [if_neg h, List.mem_map] at hout
      obtain ⟨r, hr, rfl⟩ := hout
      exact ⟨g, hg, h, r, hr, rfl⟩
  · rintro ⟨g, hg, h, r, hr, rfl⟩
    refine ⟨g, hg, ?_⟩
    simp only [groupBlock]
    rw [if_neg h, List.mem_map]
    exact ⟨r, hr, rfl⟩

/-- Looking up a key that is present in a keyed map of a list of keys. -/
lemma lookup_map_self (f : String → ℝ) :
    ∀ (cols : List String) (col : String), col ∈ cols →
      (cols.map (fun c => (c, f c))).lookup col = some (f col) := by
  intro cols
  induction cols with
  | nil => simp
  | cons c cs ih =>
    intro col hcol
    by_cases h : col = c
    · subst h
      simp [List.lookup]
    · have hbeq : (col == c) = false := beq_eq_false_iff_ne.2 h
      have hmem : col ∈ cs := (List.mem_cons.1 hcol).resolve_left h
      simp [List.lookup, hbeq, ih col hmem]

/-- The Z-score columns of a processed row: one per requested metric,
untouched by the raw-column drop. -/
lemma scoredRowFor_zscores (records : List Record) (dataCols vcs : List String)
    (g : String) (r : Record) :
    (scoredRowFor records dataCols vcs g r).zscores
      = vcs.map (fun col =>
          (col, zscoreOf (refPopulation records g) col (r.value col))) := rfl

/-- Score lookup in a processed row, for a requested metric. -/
lemma scoredRowFor_lookup (records : List Record) (dataCols vcs : List String)
    (g : String) (r : Record) (col : String) (hcol : col ∈ vcs) :
    (scoredRowFor records dataCols vcs g r).zscores.lookup col
      = some (zscoreOf (refPopulation records g) col (r.value col)) := by
  rw [scoredRowFor_zscores]
  exact lookup_map_self _ vcs col hcol

/-- Unfolding the score in the non-degenerate case. -/
lemma zscoreOf_eq_of_valid (pop : List Record) (col : String) (x : ℝ)
    (h : ¬(sampleStd (colValues pop col) = 0 ∨ (colValues pop col).length ≤ 1)) :
    zscoreOf pop col x
      = (x - mean (colValues pop col)) / sampleStd (colValues pop col) := by
  simp only [zscoreOf]
  rw [if_neg h]

/-- Unfolding the score in the degenerate case. -/
lemma zscoreOf_eq_zero (pop : List Record) (col : String) (x : ℝ)
    (h : sampleStd (colValues pop col) = 0 ∨ (colValues pop col).length ≤ 1) :
    zscoreOf pop col x = 0 := by
  simp only [zscoreOf]
  rw [if_pos h]

/-! Concrete datasets used to instantiate the theorems. -/

/-- Reference player with VO2 MAX 40 in category 1 EQUIPO. -/
noncomputable def wRef1 : Record :=
  ⟨"PRO1", "1 EQUIPO", fun c => if c = "VO2 MAX" then 40 else 0⟩

/-- Reference player with VO2 MAX 50 in category 1 EQUIPO. -/
noncomputable def wRef2 : Record :=
  ⟨"PRO2", "1 EQUIPO", fun c => if c = "VO2 MAX" then 50 else 0⟩

/-- Reference player with VO2 MAX 60 in category 1 EQUIPO. -/
noncomputable def wRef3 : Record :=
  ⟨"PRO3", "1 EQUIPO", fun c => if c = "VO2 MAX" then 60 else 0⟩

/-- Target player with VO2 MAX 65, in a different category. -/
noncomputable def wTarget : Record :=
  ⟨"OJEDA", "SUB 17", fun c => if c = "VO2 MAX" then 65 else 0⟩

/-- Dataset whose 1 EQUIPO column VO2 MAX has mean 50 and sample
standard deviation 10. -/
noncomputable def wRecords : List Record := [wRef1, wRef2, wRef3, wTarget]

/-- The single metric column of the small datasets. -/
def wMetrics : List String := ["VO2 MAX"]

lemma wFilter_eq : filterTargets wRecords ["OJEDA"] = [wTarget] := by
  simp [filterTargets, wRecords, wRef1, wRef2, wRef3, wTarget, List.filter]

lemma wPop_eq : refPopulation wRecords "1 EQUIPO" = [wRef1, wRef2, wRef3] := by
  simp [refPopulation, wRecords, wRef1, wRef2, wRef3, wTarget, List.filter]

lemma wVals_eq :
    colValues (refPopulation wRecords "1 EQUIPO") "VO2 MAX" = [40, 50, 60] := by
  rw [wPop_eq]
  simp [colValues, wRef1, wRef2, wRef3]

lemma wMean_eq : mean (colValues (refPopulation wRecords "1 EQUIPO") "VO2 MAX") = 50 := by
  rw [wVals_eq]
  norm_num [mean]

lemma wStd_eq :
    sampleStd (colValues (refPopulation wRecords "1 EQUIPO") "VO2 MAX") = 10 := by
  have hvar : sampleVar (colValues (refPopulation wRecords "1 EQUIPO") "VO2 MAX")
      = 100 := by
    rw [wVals_eq]
    norm_num [sampleVar, mean]
  rw [sampleStd, hvar, show (100 : ℝ) = 10 ^ 2 by norm_num,
    Real.sqrt_sq (by norm_num : (0 : ℝ) ≤ 10)]

/-! The claims. -/

/-- C1: for every target row and metric whose reference standard deviation is
nonzero and a valid number (population of at least two rows), the row's output
score for that metric equals (rawValue − referenceMean) / referenceStd, where
the mean is the arithmetic mean and the standard deviation is the sample
(N−1) standard deviation over the metric's values in the records whose group
label equals the reference group. -/
theorem score_formula_exact (records : List Record)
    (dataCols tps gs vcs : List String) (g col : String) (r : Record)
    (hg : g ∈ gs) (hr : r ∈ filterTargets records tps)
    (hstd : sampleStd (colValues (refPopulation records g) col) ≠ 0)
    (hlen : 2 ≤ (colValues (refPopulation records g) col).length)
    (hcol : col ∈ vcs) :
    scoredRowFor records dataCols vcs g r
        ∈ calculate_dual_zscore records dataCols tps gs vcs ∧
      (scoredRowFor records dataCols vcs g r).zscores.lookup col
        = some ((r.value col - mean (colValues (refPopulation records g) col))
            / sampleStd (colValues (refPopulation records g) col)) := by
  have hlen' : 2 ≤ (refPopulation records g).length := by
    simpa [colValues] using hlen
  have hpop : ¬(refPopulation records g).isEmpty := by
    intro h
    rw [List.isEmpty_iff] at h
    rw [h] at hlen'
    simp at hlen'
  refine ⟨(mem_calc_iff records dataCols tps gs vcs _).2 ⟨g, hg, hpop, r, hr, rfl⟩, ?_⟩
  rw [scoredRowFor_lookup records dataCols vcs g r col hcol,
    zscoreOf_eq_of_valid]
  intro hor
  rcases hor with h0 | hle
  · exact hstd h0
  · rw [colValues, List.length_map] at hle
    omega

/-- Witness for C1 at the concrete dataset of the spec's P5: reference mean
50, std 10, raw value 65, score 3/2. -/
theorem score_formula_exact_witness :
    ("1 EQUIPO" ∈ ["1 EQUIPO"] ∧
      wTarget ∈ filterTargets wRecords ["OJEDA"] ∧
      sampleStd (colValues (refPopulation wRecords "1 EQUIPO") "VO2 MAX") ≠ 0 ∧
      2 ≤ (colValues (refPopulation wRecords "1 EQUIPO") "VO2 MAX").length ∧
      "VO2 MAX" ∈ wMetrics) ∧
    scoredRowFor wRecords wMetrics wMetrics "1 EQUIPO" wTarget
        ∈ calculate_dual_zscore wRecords wMetrics ["OJEDA"] ["1 EQUIPO"] wMetrics ∧
    (scoredRowFor wRecords wMetrics wMetrics "1 EQUIPO" wTarget).zscores.lookup
        "VO2 MAX" = some (3 / 2) := by
  have hr : wTarget ∈ filterTargets wRecords ["OJEDA"] := by
    rw [wFilter_eq]
    exact List.mem_singleton.2 rfl
  have hstd : sampleStd (colValues (refPopulation wRecords "1 EQUIPO") "VO2 MAX") ≠ 0 := by
    rw [wStd_eq]
    norm_num
  have hlen : 2 ≤ (colValues (refPopulation wRecords "1 EQUIPO") "VO2 MAX").length := by
    rw [wVals_eq]
    norm_num
  obtain ⟨hmem, hlook⟩ := score_formula_exact wRecords wMetrics ["OJEDA"] ["1 EQUIPO"]
    wMetrics "1 EQUIPO" "VO2 MAX" wTarget (by simp) hr hstd hlen (by simp [wMetrics])
  refine ⟨⟨by simp, hr, hstd, hlen, by simp [wMetrics]⟩, hmem, ?_⟩
  rw [hlook, wMean_eq, wStd_eq, show wTarget.value "VO2 MAX" = 65 by simp [wTarget]]
  norm_num

/-! Degenerate dataset: a reference category whose only metric values are
identical, so the sample standard deviation is exactly zero. -/

/-- Reference player with RM SENTADILLA 30 in category SUB 17. -/
noncomputable def dRef1 : Record := ⟨"P1", "SUB 17", fun _ => 30⟩

/-- Second reference player with the identical value 30. -/
noncomputable def dRef2 : Record := ⟨"P2", "SUB 17", fun _ => 30⟩

/-- Target player, outside the reference category. -/
noncomputable def dTarget : Record := ⟨"ZEGARRA", "OTRA", fun _ => 44⟩

/-- Dataset whose SUB 17 reference population has zero variance. -/
noncomputable def dRecords : List Record := [dRef1, dRef2, dTarget]

lemma dPop_eq : refPopulation dRecords "SUB 17" = [dRef1, dRef2] := by
  simp [refPopulation, dRecords, dRef1, dRef2, dTarget, List.filter]

lemma dStd_eq :
    sampleStd (colValues (refPopulation dRecords "SUB 17") "RM SENTADILLA") = 0 := by
  have hvals : colValues (refPopulation dRecords "SUB 17") "RM SENTADILLA"
      = [30, 30] := by
    rw [dPop_eq]
    simp [colValues, dRef1, dRef2]
  have hvar : sampleVar (colValues (refPopulation dRecords "SUB 17") "RM SENTADILLA")
      = 0 := by
    rw [hvals]
    norm_num [sampleVar, mean]
  rw [sampleStd, hvar, Real.sqrt_zero]

lemma dFilter_eq : filterTargets dRecords ["ZEGARRA"] = [dTarget] := by
  simp [filterTargets, dRecords, dRef1, dRef2, dTarget, List.filter]

/-- C2: whenever the reference standard deviation of a metric is zero, or is
not a valid number (pandas yields NaN on a reference population with fewer
than two rows), every output row tagged with that reference group scores
exactly 0 for that metric; the score is a total real-valued function, so no
exception and no non-numeric value can be produced. -/
theorem zero_variance_scores_zero (records : List Record)
    (dataCols tps gs vcs : List String) (g col : String) (out : ScoredRow)
    (hout : out ∈ calculate_dual_zscore records dataCols tps gs vcs)
    (htag : out.refCategoria = g) (hcol : col ∈ vcs)
    (hdeg : sampleStd (colValues (refPopulation records g) col) = 0
        ∨ (colValues (refPopulation records g) col).length ≤ 1) :
    out.zscores.lookup col = some 0 := by
  obtain ⟨g', hg', hpop, r, hr, rfl⟩ :=
    (mem_calc_iff records dataCols tps gs vcs out).1 hout
  have hgg : g' = g := by
    rw [← htag, scoredRowFor_refCategoria]
  subst hgg
  rw [scoredRowFor_lookup records dataCols vcs g' r col hcol,
    zscoreOf_eq_zero _ _ _ hdeg]

/-- Witness for C2: both SUB 17 reference values are 30, so the target's
score is 0. -/
theorem zero_variance_scores_zero_witness :
    (scoredRowFor dRecords ["RM SENTADILLA"] ["RM SENTADILLA"] "SUB 17" dTarget
        ∈ calculate_dual_zscore dRecords ["RM SENTADILLA"] ["ZEGARRA"] ["SUB 17"]
          ["RM SENTADILLA"] ∧
      sampleStd (colValues (refPopulation dRecords "SUB 17") "RM SENTADILLA") = 0) ∧
    (scoredRowFor dRecords ["RM SENTADILLA"] ["RM SENTADILLA"] "SUB 17"
        dTarget).zscores.lookup "RM SENTADILLA" = some 0 := by
  have hpop : ¬(refPopulation dRecords "SUB 17").isEmpty := by
    rw [dPop_eq]
    simp
  have hr : dTarget ∈ filterTargets dRecords ["ZEGARRA"] := by
    rw [dFilter_eq]
    exact List.mem_singleton.2 rfl
  have hout : scoredRowFor dRecords ["RM SENTADILLA"] ["RM SENTADILLA"] "SUB 17" dTarget
      ∈ calculate_dual_zscore dRecords ["RM SENTADILLA"] ["ZEGARRA"] ["SUB 17"]
        ["RM SENTADILLA"] :=
    (mem_calc_iff _ _ _ _ _ _).2 ⟨"SUB 17", by simp, hpop, dTarget, hr, rfl⟩
  exact ⟨⟨hout, dStd_eq⟩,
    zero_variance_scores_zero dRecords ["RM SENTADILLA"] ["ZEGARRA"] ["SUB 17"]
      ["RM SENTADILLA"] "SUB 17" "RM SENTADILLA" _ hout rfl (by simp)
      (Or.inl dStd_eq)⟩

/-- C3: a requested reference group with no matching records contributes no
tagged rows, and when every requested reference group has no matching records
the calculator returns the empty result set. -/
theorem empty_reference_skipped (records : List Record)
    (dataCols tps gs vcs : List String) (g : String) :
    ((refPopulation records g = []) →
      ∀ out ∈ calculate_dual_zscore records dataCols tps gs vcs,
        out.refCategoria ≠ g) ∧
    ((∀ g' ∈ gs, refPopulation records g' = []) →
      calculate_dual_zscore records dataCols tps gs vcs = []) := by
  constructor
  · intro hempty out hout htag
    obtain ⟨g', hg', hpop, r, hr, rfl⟩ :=
      (mem_calc_iff records dataCols tps gs vcs out).1 hout
    have hgg : g' = g := by
      rw [← htag, scoredRowFor_refCategoria]
    subst hgg
    exact hpop (by rw [hempty]; rfl)
  · intro hall
    rw [calc_eq_flatMap]
    refine List.eq_nil_iff_forall_not_mem.2 ?_
    intro out hout
    rw [List.mem_flatMap] at hout
    obtain ⟨g', hg', hmem⟩ := hout
    rw [groupBlock, if_pos (by rw [hall g' hg']; rfl)] at hmem
    exact List.not_mem_nil out hmem

/-- Witness for C3: the category SUB 23 has no records in the dataset, so no
output row is tagged with it, and requesting only SUB 23 yields the empty
result set. -/
theorem empty_reference_skipped_witness :
    refPopulation wRecords "SUB 23" = [] ∧
    (∀ out ∈ calculate_dual_zscore wRecords wMetrics ["OJEDA"]
        ["1 EQUIPO", "SUB 23"] wMetrics, out.refCategoria ≠ "SUB 23") ∧
    calculate_dual_zscore wRecords wMetrics ["OJEDA"] ["SUB 23"] wMetrics = [] := by
  have hempty : refPopulation wRecords "SUB 23" = [] := by
    simp [refPopulation, wRecords, wRef1, wRef2, wRef3, wTarget, List.filter]
  refine ⟨hempty,
    (empty_reference_skipped wRecords wMetrics ["OJEDA"] ["1 EQUIPO", "SUB 23"]
      wMetrics "SUB 23").1 hempty,
    (empty_reference_skipped wRecords wMetrics ["OJEDA"] ["SUB 23"]
      wMetrics "SUB 23").2 ?_⟩
  intro g' hg'
  rw [List.mem_singleton] at hg'
  subst hg'
  exact hempty

lemma wPop_not_empty : ¬(refPopulation wRecords "1 EQUIPO").isEmpty := by
  rw [wPop_eq]
  simp

/-- The single-group output on the P5 dataset, computed in closed form. -/
lemma wCalc_eq (vcs : List String) :
    calculate_dual_zscore wRecords wMetrics ["OJEDA"] ["1 EQUIPO"] vcs
      = [scoredRowFor wRecords wMetrics vcs "1 EQUIPO" wTarget] := by
  rw [calc_eq_flatMap]
  show groupBlock wRecords wMetrics ["OJEDA"] vcs "1 EQUIPO" ++ [] = _
  rw [groupBlock, if_neg wPop_not_empty, wFilter_eq]
  rfl

/-- C4 counterexample: with a non-empty target and reference selection but an
empty metric list, the calculator still emits one (unscored) row per filtered
target row, so the result set is not empty. -/
theorem empty_metrics_still_rows :
    calculate_dual_zscore wRecords wMetrics ["OJEDA"] ["1 EQUIPO"] [] ≠ [] := by
  rw [wCalc_eq []]
  simp

/-- C4 (amended): an empty target-entity list or an empty reference-group
list makes the calculator return the empty result set; an empty metric list
does not — the guard that keeps empty selections away from the calculator
lives in the interactive layer, which returns before calling it. -/
theorem empty_selection_empty_result (records : List Record)
    (dataCols tps gs vcs : List String) :
    (tps = [] → calculate_dual_zscore records dataCols tps gs vcs = []) ∧
    (gs = [] → calculate_dual_zscore records dataCols tps gs vcs = []) := by
  constructor
  · intro htps
    subst htps
    have hfil : filterTargets records [] = [] := by
      simp [filterTargets]
    rw [calc_eq_flatMap]
    refine List.eq_nil_iff_forall_not_mem.2 ?_
    intro out hout
    rw [List.mem_flatMap] at hout
    obtain ⟨g, hg, hm⟩ := hout
    rw [groupBlock, hfil] at hm
    simp at hm
  · intro hgs
    subst hgs
    rw [calc_eq_flatMap]
    rfl

/-- Witness for the amended C4 at concrete inputs. -/
theorem empty_selection_empty_result_witness :
    calculate_dual_zscore wRecords wMetrics [] ["1 EQUIPO"] wMetrics = [] ∧
    calculate_dual_zscore wRecords wMetrics ["OJEDA"] [] wMetrics = [] :=
  ⟨(empty_selection_empty_result wRecords wMetrics [] ["1 EQUIPO"] wMetrics).1 rfl,
   (empty_selection_empty_result wRecords wMetrics ["OJEDA"] [] wMetrics).2 rfl⟩

/-- Mapping the first projection over a filtered keyed map of the columns. -/
lemma map_fst_filter_map (dataCols : List String) (v : String → ℝ)
    (vcs : List String) :
    (((dataCols.map (fun c => (c, v c))).filter
        (fun p => !(vcs.contains p.1))).map Prod.fst)
      = dataCols.filter (fun c => !(vcs.contains c)) := by
  induction dataCols with
  | nil => simp
  | cons c cs ih =>
    by_cases h : c ∈ vcs <;> simp [h] <;> simpa using ih

/-- C5 counterexample: the output rows keep the original group-label column
`CATEGORÍA`, which is neither the entity identifier, nor the reference-group
tag, nor a standardized-score column. -/
theorem output_keeps_categoria :
    ∃ out ∈ calculate_dual_zscore wRecords wMetrics ["OJEDA"] ["1 EQUIPO"] wMetrics,
      COL_CATEGORIA ∈ rowColumns out ∧
      COL_CATEGORIA ∉ ([COL_JUGADOR, REF_COL] ++ wMetrics.map zscoreColName) := by
  refine ⟨scoredRowFor wRecords wMetrics wMetrics "1 EQUIPO" wTarget, ?_, ?_, ?_⟩
  · rw [wCalc_eq wMetrics]
    exact List.mem_singleton.2 rfl
  · simp [rowColumns]
  · simp [COL_CATEGORIA, COL_JUGADOR, REF_COL, zscoreColName, wMetrics]

/-- C5 (amended): every output row's columns are exactly the player
identifier, the original group-label column, the raw metric columns that were
not requested, one `Z-Score {col}` column per requested metric, and the
reference-group tag; in particular every requested raw-value column is
dropped. -/
theorem output_columns_exact (records : List Record)
    (dataCols tps gs vcs : List String) (out : ScoredRow)
    (hout : out ∈ calculate_dual_zscore records dataCols tps gs vcs) :
    rowColumns out
      = [COL_JUGADOR, COL_CATEGORIA]
        ++ dataCols.filter (fun c => !(vcs.contains c))
        ++ vcs.map zscoreColName ++ [REF_COL] := by
  obtain ⟨g, hg, hpop, r, hr, rfl⟩ :=
    (mem_calc_iff records dataCols tps gs vcs out).1 hout
  rw [rowColumns]
  have hraw : (scoredRowFor records dataCols vcs g r).rawCols
      = (dataCols.map (fun c => (c, r.value c))).filter
          (fun p => !(vcs.contains p.1)) := rfl
  rw [hraw, map_fst_filter_map, scoredRowFor_zscores, List.map_map]
  rfl

/-- Witness for the amended C5 at a concrete input: the requested raw column
VO2 MAX is gone, the CATEGORÍA column remains. -/
theorem output_columns_exact_witness :
    (scoredRowFor wRecords wMetrics wMetrics "1 EQUIPO" wTarget
        ∈ calculate_dual_zscore wRecords wMetrics ["OJEDA"] ["1 EQUIPO"] wMetrics) ∧
    rowColumns (scoredRowFor wRecords wMetrics wMetrics "1 EQUIPO" wTarget)
      = ["JUGADOR", "CATEGORÍA", "Z-Score VO2 MAX", "Categoría de Referencia"] := by
  have hout : scoredRowFor wRecords wMetrics wMetrics "1 EQUIPO" wTarget
      ∈ calculate_dual_zscore wRecords wMetrics ["OJEDA"] ["1 EQUIPO"] wMetrics := by
    rw [wCalc_eq wMetrics]
    exact List.mem_singleton.2 rfl
  refine ⟨hout, ?_⟩
  rw [output_columns_exact wRecords wMetrics ["OJEDA"] ["1 EQUIPO"] wMetrics _ hout]
  rfl

/-! Claim C6: independence across reference groups. -/

/-- Filtering distributes over the concatenation of per-element blocks. -/
lemma filter_flatMap {α β : Type} (l : List α) (f : α → List β) (p : β → Bool) :
    (l.flatMap f).filter p = l.flatMap (fun a => (f a).filter p) := by
  induction l with
  | nil => rfl
  | cons a l ih => simp [List.filter_append, ih]

/-- Removing the records of a different category leaves a reference
population unchanged. -/
lemma refPopulation_erase_other (records : List Record) (g1 g2 : String)
    (hne : g2 ≠ g1) :
    refPopulation (records.filter (fun r => !(r.categoria == g2))) g1
      = refPopulation records g1 := by
  rw [refPopulation, refPopulation, List.filter_filter]
  refine List.filter_congr ?_
  intro r _
  cases h : (r.categoria == g1) with
  | false => simp [h]
  | true =>
    have heq : r.categoria = g1 := by simpa using h
    have hb : (r.categoria == g2) = false :=
      beq_eq_false_iff_ne.2 (by rw [heq]; exact fun hh => hne hh.symm)
    simp [h, hb]

/-- Removing the records of a category that contains no filtered target row
leaves the filtered target rows unchanged. -/
lemma filterTargets_erase_other (records : List Record) (tps : List String)
    (g2 : String)
    (htargets : ∀ r ∈ filterTargets records tps, r.categoria ≠ g2) :
    filterTargets (records.filter (fun r => !(r.categoria == g2))) tps
      = filterTargets records tps := by
  rw [filterTargets, filterTargets, List.filter_filter]
  refine List.filter_congr ?_
  intro r hr
  cases h : tps.contains r.jugador with
  | false => simp [h]
  | true =>
    have hmem : r ∈ filterTargets records tps := List.mem_filter.2 ⟨hr, h⟩
    have hb : (r.categoria == g2) = false := beq_eq_false_iff_ne.2 (htargets r hmem)
    simp [h, hb]

/-- A processed row only depends on the record set through the reference
population of its category. -/
lemma scoredRowFor_congr_pop (records records' : List Record)
    (dataCols vcs : List String) (g : String)
    (hpop : refPopulation records' g = refPopulation records g) (r : Record) :
    scoredRowFor records' dataCols vcs g r
      = scoredRowFor records dataCols vcs g r := by
  simp [scoredRowFor, rawScoredRow, dropValueCols, hpop]

/-- Rows of a block for one category never carry a different category's tag. -/
lemma groupBlock_filter_ne (recs : List Record) (dataCols tps vcs : List String)
    (g g1 : String) (hne : g ≠ g1) :
    (groupBlock recs dataCols tps vcs g).filter
        (fun o => o.refCategoria == g1) = [] := by
  rw [groupBlock]
  by_cases he : (refPopulation recs g).isEmpty
  · rw [if_pos he]
    rfl
  · rw [if_neg he]
    induction filterTargets recs tps with
    | nil => rfl
    | cons r l ih =>
      have hb : ((scoredRowFor recs dataCols vcs g r).refCategoria == g1) = false := by
        rw [scoredRowFor_refCategoria]
        exact beq_eq_false_iff_ne.2 hne
      simp only [List.map_cons, List.filter_cons, hb]
      simpa using ih

/-- C6 (amended): removing all of reference group g2's records (g2 ≠ g1)
does not change any g1-tagged output row, provided no filtered target row
itself carries the group label g2 (otherwise the removal also removes that
target row, and with it its g1-tagged output rows). -/
theorem group_independence (records : List Record)
    (dataCols tps gs vcs : List String) (g1 g2 : String)
    (hne : g2 ≠ g1)
    (htargets : ∀ r ∈ filterTargets records tps, r.categoria ≠ g2) :
    ((calculate_dual_zscore (records.filter (fun r => !(r.categoria == g2)))
        dataCols tps gs vcs).filter (fun o => o.refCategoria == g1))
      = ((calculate_dual_zscore records dataCols tps gs vcs).filter
          (fun o => o.refCategoria == g1)) := by
  rw [calc_eq_flatMap, calc_eq_flatMap, filter_flatMap, filter_flatMap]
  have hblock : ∀ g : String,
      ((groupBlock (records.filter (fun r => !(r.categoria == g2)))
          dataCols tps vcs g).filter (fun o => o.refCategoria == g1))
        = ((groupBlock records dataCols tps vcs g).filter
            (fun o => o.refCategoria == g1)) := by
    intro g
    by_cases hg : g = g1
    · subst hg
      have hpop := refPopulation_erase_other records g g2 hne
      have hfil := filterTargets_erase_other records tps g2 htargets
      have hrow : scoredRowFor (records.filter (fun r => !(r.categoria == g2)))
          dataCols vcs g = scoredRowFor records dataCols vcs g :=
        funext (scoredRowFor_congr_pop records _ dataCols vcs g hpop)
      rw [groupBlock, groupBlock, hpop, hfil, hrow]
    · rw [groupBlock_filter_ne _ dataCols tps vcs g g1 hg,
        groupBlock_filter_ne records dataCols tps vcs g g1 hg]
  have hfun : (fun g => (groupBlock (records.filter (fun r => !(r.categoria == g2)))
        dataCols tps vcs g).filter (fun o => o.refCategoria == g1))
      = (fun g => (groupBlock records dataCols tps vcs g).filter
          (fun o => o.refCategoria == g1)) := funext hblock
  rw [hfun]

/-- Extra reference player in a third category, SUB 20. -/
noncomputable def xRef : Record := ⟨"JUV1", "SUB 20", fun _ => 99⟩

/-- Dataset with three categories: 1 EQUIPO, SUB 20 and the target's SUB 17. -/
noncomputable def mRecords : List Record := [wRef1, wRef2, wRef3, xRef, wTarget]

lemma mFilter_eq : filterTargets mRecords ["OJEDA"] = [wTarget] := by
  simp [filterTargets, mRecords, wRef1, wRef2, wRef3, xRef, wTarget, List.filter]

/-- Witness for the amended C6: dropping the SUB 20 records does not change
the rows scored against 1 EQUIPO. -/
theorem group_independence_witness :
    ("SUB 20" ≠ "1 EQUIPO") ∧
    (∀ r ∈ filterTargets mRecords ["OJEDA"], r.categoria ≠ "SUB 20") ∧
    ((calculate_dual_zscore (mRecords.filter (fun r => !(r.categoria == "SUB 20")))
        wMetrics ["OJEDA"] ["1 EQUIPO"] wMetrics).filter
          (fun o => o.refCategoria == "1 EQUIPO"))
      = ((calculate_dual_zscore mRecords wMetrics ["OJEDA"] ["1 EQUIPO"]
          wMetrics).filter (fun o => o.refCategoria == "1 EQUIPO")) := by
  have h2 : ∀ r ∈ filterTargets mRecords ["OJEDA"], r.categoria ≠ "SUB 20" := by
    intro r hr
    rw [mFilter_eq, List.mem_singleton] at hr
    subst hr
    simp [wTarget]
  exact ⟨by decide, h2,
    group_independence mRecords wMetrics ["OJEDA"] ["1 EQUIPO"] wMetrics
      "1 EQUIPO" "SUB 20" (by decide) h2⟩

/-- C6 counterexample: the target OJEDA's own row carries the label SUB 17,
so removing the SUB 17 records (a group different from the reference group
1 EQUIPO) removes the target row itself and changes the 1 EQUIPO-tagged
output. -/
theorem removing_other_group_changes_output :
    ((calculate_dual_zscore (wRecords.filter (fun r => !(r.categoria == "SUB 17")))
        wMetrics ["OJEDA"] ["1 EQUIPO"] wMetrics).filter
          (fun o => o.refCategoria == "1 EQUIPO"))
      ≠ ((calculate_dual_zscore wRecords wMetrics ["OJEDA"] ["1 EQUIPO"]
          wMetrics).filter (fun o => o.refCategoria == "1 EQUIPO")) := by
  have hrecs : wRecords.filter (fun r => !(r.categoria == "SUB 17"))
      = [wRef1, wRef2, wRef3] := by
    simp [wRecords, wRef1, wRef2, wRef3, wTarget, List.filter]
  have hfil : filterTargets [wRef1, wRef2, wRef3] ["OJEDA"] = [] := by
    simp [filterTargets, wRef1, wRef2, wRef3, List.filter]
  have hleft : calculate_dual_zscore [wRef1, wRef2, wRef3] wMetrics ["OJEDA"]
      ["1 EQUIPO"] wMetrics = [] := by
    rw [calc_eq_flatMap]
    show groupBlock [wRef1, wRef2, wRef3] wMetrics ["OJEDA"] wMetrics "1 EQUIPO"
        ++ [] = []
    rw [groupBlock, hfil]
    simp
  rw [hrecs, hleft, wCalc_eq wMetrics]
  intro h
  have := congrArg List.length h
  simp [List.filter, scoredRowFor_refCategoria] at this

/-! Claim C7: scale invariance of the Z-score. -/

/-- Multiply every value of metric `m` of a record by `c`, leaving all other
columns untouched. -/
noncomputable def scaleMetric (m : String) (c : ℝ) (r : Record) : Record :=
  { r with value := fun col => if col = m then c * r.value col else r.value col }

lemma scaleMetric_value_self (m : String) (c : ℝ) (r : Record) :
    (scaleMetric m c r).value m = c * r.value m := by
  simp [scaleMetric]

lemma scaleMetric_value_other (m col : String) (c : ℝ) (r : Record)
    (hne : col ≠ m) : (scaleMetric m c r).value col = r.value col := by
  simp [scaleMetric, hne]

/-- Filtering commutes with mapping when the predicate is read through the
map. -/
lemma filter_map_comm {α β : Type} (l : List α) (f : α → β) (p : β → Bool) :
    (l.map f).filter p = (l.filter (fun a => p (f a))).map f := by
  induction l with
  | nil => rfl
  | cons a l ih => cases h : p (f a) <;> simp [List.filter_cons, h, ih]

lemma refPopulation_map_scale (records : List Record) (m : String) (c : ℝ)
    (g : String) :
    refPopulation (records.map (scaleMetric m c)) g
      = (refPopulation records g).map (scaleMetric m c) := by
  rw [refPopulation, refPopulation, filter_map_comm]
  rfl

lemma filterTargets_map_scale (records : List Record) (m : String) (c : ℝ)
    (tps : List String) :
    filterTargets (records.map (scaleMetric m c)) tps
      = (filterTargets records tps).map (scaleMetric m c) := by
  rw [filterTargets, filterTargets, filter_map_comm]
  rfl

lemma colValues_map_scale_self (pop : List Record) (m : String) (c : ℝ) :
    colValues (pop.map (scaleMetric m c)) m
      = (colValues pop m).map (fun x => c * x) := by
  simp [colValues, List.map_map, Function.comp_def, scaleMetric]

lemma colValues_map_scale_other (pop : List Record) (m col : String) (c : ℝ)
    (hne : col ≠ m) :
    colValues (pop.map (scaleMetric m c)) col = colValues pop col := by
  simp [colValues, List.map_map, Function.comp_def, scaleMetric, hne]

lemma mean_map_mul (c : ℝ) (xs : List ℝ) :
    mean (xs.map (fun x => c * x)) = c * mean xs := by
  rw [mean, mean, List.length_map]
  rw [show (xs.map (fun x => c * x)).sum = c * xs.sum by
    simpa using List.sum_map_mul_left xs (fun x => x) c]
  rw [mul_div_assoc]

lemma sampleVar_map_mul (c : ℝ) (xs : List ℝ) :
    sampleVar (xs.map (fun x => c * x)) = c ^ 2 * sampleVar xs := by
  rw [sampleVar, sampleVar, List.length_map, mean_map_mul, List.map_map]
  rw [show ((fun x => (x - c * mean xs) ^ 2) ∘ fun x => c * x)
      = (fun x => c ^ 2 * (x - mean xs) ^ 2) by
    funext x
    simp only [Function.comp_apply]
    ring]
  rw [show (xs.map (fun x => c ^ 2 * (x - mean xs) ^ 2)).sum
      = c ^ 2 * (xs.map (fun x => (x - mean xs) ^ 2)).sum by
    simpa using List.sum_map_mul_left xs (fun x => (x - mean xs) ^ 2) (c ^ 2)]
  rw [mul_div_assoc]

lemma sampleStd_map_mul (c : ℝ) (hc : 0 ≤ c) (xs : List ℝ) :
    sampleStd (xs.map (fun x => c * x)) = c * sampleStd xs := by
  rw [sampleStd, sampleStd, sampleVar_map_mul, Real.sqrt_mul (sq_nonneg c),
    Real.sqrt_sq hc]

lemma zscoreOf_scale_self (pop : List Record) (m : String) (c x : ℝ)
    (hc : 0 < c) :
    zscoreOf (pop.map (scaleMetric m c)) m (c * x) = zscoreOf pop m x := by
  simp only [zscoreOf, colValues_map_scale_self]
  have hstd : sampleStd ((colValues pop m).map (fun y => c * y))
      = c * sampleStd (colValues pop m) := sampleStd_map_mul c hc.le _
  have hcnd : (sampleStd ((colValues pop m).map (fun y => c * y)) = 0
        ∨ ((colValues pop m).map (fun y => c * y)).length ≤ 1)
      ↔ (sampleStd (colValues pop m) = 0 ∨ (colValues pop m).length ≤ 1) := by
    rw [hstd, List.length_map, mul_eq_zero]
    simp [hc.ne']
  by_cases h : sampleStd (colValues pop m) = 0 ∨ (colValues pop m).length ≤ 1
  · rw [if_pos (hcnd.2 h), if_pos h]
  · rw [if_neg (fun hh => h (hcnd.1 hh)), if_neg h, mean_map_mul, hstd,
      ← mul_sub, mul_div_mul_left _ _ hc.ne']

lemma zscoreOf_scale_other (pop : List Record) (m col : String) (c x : ℝ)
    (hne : col ≠ m) :
    zscoreOf (pop.map (scaleMetric m c)) col x = zscoreOf pop col x := by
  simp only [zscoreOf, colValues_map_scale_other pop m col c hne]
  by_cases h : sampleStd (colValues pop col) = 0 ∨ (colValues pop col).length ≤ 1
  · rw [if_pos h, if_pos h]
  · rw [if_neg h, if_neg h]

/-- Scaling metric `m` by a positive constant leaves a whole processed row
unchanged when `m` is one of the requested metrics (its raw column is
dropped, its score is scale invariant, every other column is untouched). -/
lemma scoredRowFor_scale (records : List Record) (dataCols vcs : List String)
    (g m : String) (c : ℝ) (hc : 0 < c) (hm : m ∈ vcs) (r : Record) :
    scoredRowFor (records.map (scaleMetric m c)) dataCols vcs g
        (scaleMetric m c r)
      = scoredRowFor records dataCols vcs g r := by
  have hjug : (scaleMetric m c r).jugador = r.jugador := rfl
  have hcat : (scaleMetric m c r).categoria = r.categoria := rfl
  simp only [scoredRowFor, rawScoredRow, dropValueCols, ScoredRow.mk.injEq,
    hjug, hcat, true_and, and_true]
  constructor
  · induction dataCols with
    | nil => rfl
    | cons d ds ih =>
      simp only [List.map_cons, List.filter_cons]
      cases hd : vcs.contains d with
      | true => simpa [hd] using ih
      | false =>
        have hdm : d ≠ m := by
          intro hdm
          subst hdm
          have htrue : vcs.contains d = true := by simpa using hm
          rw [htrue] at hd
          exact Bool.noConfusion hd
        simp only [hd, Bool.not_false, if_true]
        rw [scaleMetric_value_other m d c r hdm]
        simpa [hd] using ih
  · refine List.map_congr_left ?_
    intro col hcol
    rw [refPopulation_map_scale]
    by_cases hcm : col = m
    · subst hcm
      rw [scaleMetric_value_self, zscoreOf_scale_self _ _ _ _ hc]
    · rw [scaleMetric_value_other m col c r hcm,
        zscoreOf_scale_other _ _ _ _ _ hcm]

/-- C7: multiplying every value of a requested metric `m` (in the reference
populations and in the target rows alike) by a positive constant `c` leaves
the calculator's output unchanged; in particular every output score for `m`
is unchanged. -/
theorem scale_invariance (records : List Record)
    (dataCols tps gs vcs : List String) (m : String) (c : ℝ)
    (hc : 0 < c) (hm : m ∈ vcs) :
    calculate_dual_zscore (records.map (scaleMetric m c)) dataCols tps gs vcs
      = calculate_dual_zscore records dataCols tps gs vcs := by
  rw [calc_eq_flatMap, calc_eq_flatMap]
  have hblock : ∀ g : String,
      groupBlock (records.map (scaleMetric m c)) dataCols tps vcs g
        = groupBlock records dataCols tps vcs g := by
    intro g
    rw [groupBlock, groupBlock, refPopulation_map_scale, filterTargets_map_scale]
    by_cases he : (refPopulation records g).isEmpty
    · rw [List.isEmpty_iff] at he
      rw [he]
      rfl
    · rw [if_neg (by
          rw [List.isEmpty_iff]
          intro hh
          have hnil : refPopulation records g = [] := List.map_eq_nil_iff.1 hh
          exact he (by rw [hnil]; rfl)),
        if_neg he, List.map_map]
      refine List.map_congr_left ?_
      intro r _
      exact scoredRowFor_scale records dataCols vcs g m c hc hm r
  exact congrArg _ (funext hblock)

/-- Witness for C7: doubling the VO2 MAX column of the P5 dataset gives the
identical output. -/
theorem scale_invariance_witness :
    (0 : ℝ) < 2 ∧ "VO2 MAX" ∈ wMetrics ∧
    calculate_dual_zscore (wRecords.map (scaleMetric "VO2 MAX" 2)) wMetrics
        ["OJEDA"] ["1 EQUIPO"] wMetrics
      = calculate_dual_zscore wRecords wMetrics ["OJEDA"] ["1 EQUIPO"] wMetrics :=
  ⟨by norm_num, by simp [wMetrics],
    scale_invariance wRecords wMetrics ["OJEDA"] ["1 EQUIPO"] wMetrics
      "VO2 MAX" 2 (by norm_num) (by simp [wMetrics])⟩

/-- C8: the result set is the concatenation, over the reference groups in
the order they were given, of one block per group; each non-skipped block
maps over the filtered target rows in their original row order (see
`groupBlock`), so rows are grouped by reference group in input order and
ordered inside each group by original row order. -/
theorem result_grouped_in_order (records : List Record)
    (dataCols tps gs vcs : List String) :
    calculate_dual_zscore records dataCols tps gs vcs
      = gs.flatMap (groupBlock records dataCols tps vcs) :=
  calc_eq_flatMap records dataCols tps gs vcs

/-- C9: a non-skipped reference group contributes exactly one output row per
filtered input row — duplicate rows of the same entity are scored
independently — so the number of rows tagged with `g` is the number of
occurrences of `g` in the requested groups times the number of filtered
target rows. -/
theorem one_row_per_input_row (records : List Record)
    (dataCols tps gs vcs : List String) (g : String)
    (hpop : ¬(refPopulation records g).isEmpty) :
    ((calculate_dual_zscore records dataCols tps gs vcs).filter
        (fun o => o.refCategoria == g)).length
      = gs.count g * (filterTargets records tps).length := by
  rw [calc_eq_flatMap, filter_flatMap]
  induction gs with
  | nil => simp
  | cons g' gs ih =>
    rw [List.flatMap_cons, List.length_append, ih]
    by_cases hg : g' = g
    · subst hg
      have hfil : ((filterTargets records tps).map
            (scoredRowFor records dataCols vcs g')).filter
              (fun o => o.refCategoria == g')
          = (filterTargets records tps).map
              (scoredRowFor records dataCols vcs g') :=
        List.filter_eq_self.2 (by
          intro o ho
          obtain ⟨r, hr, rfl⟩ := List.mem_map.1 ho
          simp [scoredRowFor_refCategoria])
      rw [groupBlock, if_neg hpop, hfil, List.length_map,
        List.count_cons_self, Nat.succ_mul]
      omega
    · rw [groupBlock_filter_ne records dataCols tps vcs g' g hg,
        List.count_cons_of_ne (fun h => hg h.symm)]
      simp

/-- Duplicate rows for the same target entity CALAGUA. -/
noncomputable def cDup1 : Record := ⟨"CALAGUA", "SUB 17", fun _ => 10⟩

/-- Second, independent row for the same entity. -/
noncomputable def cDup2 : Record := ⟨"CALAGUA", "SUB 17", fun _ => 20⟩

/-- Dataset in which the target entity appears in two records. -/
noncomputable def cRecords : List Record := [wRef1, wRef2, wRef3, cDup1, cDup2]

lemma cPop_eq : refPopulation cRecords "1 EQUIPO" = [wRef1, wRef2, wRef3] := by
  simp [refPopulation, cRecords, wRef1, wRef2, wRef3, cDup1, cDup2, List.filter]

lemma cFilter_eq : filterTargets cRecords ["CALAGUA"] = [cDup1, cDup2] := by
  simp [filterTargets, cRecords, wRef1, wRef2, wRef3, cDup1, cDup2, List.filter]

/-- Witness for C9: the entity CALAGUA has two rows and both are scored, so
the single requested group yields two tagged output rows. -/
theorem one_row_per_input_row_witness :
    ¬(refPopulation cRecords "1 EQUIPO").isEmpty ∧
    ((calculate_dual_zscore cRecords wMetrics ["CALAGUA"] ["1 EQUIPO"]
        wMetrics).filter (fun o => o.refCategoria == "1 EQUIPO")).length = 2 := by
  have hpop : ¬(refPopulation cRecords "1 EQUIPO").isEmpty := by
    rw [cPop_eq]
    simp
  refine ⟨hpop, ?_⟩
  rw [one_row_per_input_row cRecords wMetrics ["CALAGUA"] ["1 EQUIPO"] wMetrics
    "1 EQUIPO" hpop, cFilter_eq]
  rfl

/-- C10: a target row whose own group label is a requested reference group is
itself part of that group's reference population — the calculator never
excludes target rows from the statistics — and that same row is scored
(against the population containing its own measurement) in the output. -/
theorem target_included_in_reference (records : List Record)
    (dataCols tps gs vcs : List String) (g : String) (r : Record)
    (hr : r ∈ records) (hcat : r.categoria = g)
    (hjug : tps.contains r.jugador = true) (hg : g ∈ gs) :
    r ∈ refPopulation records g ∧
      scoredRowFor records dataCols vcs g r
        ∈ calculate_dual_zscore records dataCols tps gs vcs := by
  have hmemref : r ∈ refPopulation records g :=
    List.mem_filter.2 ⟨hr, by simp [hcat]⟩
  have hpop : ¬(refPopulation records g).isEmpty := by
    intro h
    rw [List.isEmpty_iff] at h
    rw [h] at hmemref
    exact List.not_mem_nil r hmemref
  have hrt : r ∈ filterTargets records tps := List.mem_filter.2 ⟨hr, hjug⟩
  exact ⟨hmemref,
    (mem_calc_iff records dataCols tps gs vcs _).2 ⟨g, hg, hpop, r, hrt, rfl⟩⟩

/-- Dataset where the target OJEDA's own row belongs to the requested
reference group SUB 17. -/
noncomputable def sRecords : List Record := [dRef1, dRef2, wTarget]

/-- Witness for C10: OJEDA's own SUB 17 row sits inside the SUB 17 reference
population it is scored against. -/
theorem target_included_in_reference_witness :
    (wTarget ∈ sRecords ∧ wTarget.categoria = "SUB 17" ∧
      (["OJEDA"].contains wTarget.jugador = true) ∧ "SUB 17" ∈ ["SUB 17"]) ∧
    wTarget ∈ refPopulation sRecords "SUB 17" ∧
    scoredRowFor sRecords wMetrics wMetrics "SUB 17" wTarget
      ∈ calculate_dual_zscore sRecords wMetrics ["OJEDA"] ["SUB 17"] wMetrics := by
  have hr : wTarget ∈ sRecords := by simp [sRecords]
  have hjug : (["OJEDA"].contains wTarget.jugador = true) := by simp [wTarget]
  exact ⟨⟨hr, rfl, hjug, by simp⟩,
    target_included_in_reference sRecords wMetrics ["OJEDA"] ["SUB 17"] wMetrics
      "SUB 17" wTarget hr rfl hjug (by simp)⟩

end DualZScore
